import Mathlib

/-!
Shallow embedding of the waczlib WACZ archive inspector
(`src/waczlib/wacz.py`, `src/waczlib/helpers.py`).

The archive is modelled as a list of zip members (name, raw content).
External collaborators (the JSON decoder, the ISO-8601 date parser and
the cryptographic hash primitive) are modelled as an `Ext` record of
oracle functions, exactly as the code consumes them (`json.loads`,
`parse_iso_8601_date`, `hashlib.new(...).hexdigest()`).

Python exceptions are modelled by the `Res` result type: `Res.waczError r`
is the library's typed `InvalidWaczError(reason=r)`, `Res.pyErr e` is any
other (untyped) Python exception escaping the function.
-/

namespace Waczlib

/-- Generic JSON value tree, as produced by the JSON decoder.
Python `None` (JSON `null`) is `Json.null`; object key order follows the
document, and the decoder (CPython `json`) never yields duplicate keys. -/
inductive Json where
  | null
  | bool (b : Bool)
  | num (n : Int)
  | str (s : String)
  | arr (xs : List Json)
  | obj (kvs : List (String × Json))

/-- Untyped Python exceptions that can escape the library's functions. -/
inductive PyErr where
  /-- The `KeyError` raised e.g. by `ZipFile.open` on a missing member name. -/
  | keyError (k : String)
  /-- A `ValueError` (outside the `json` module), e.g. from
  tuple unpacking or `hashlib.new` on an unsupported algorithm. -/
  | valueError (msg : String)
  /-- The `TypeError` / `AttributeError`-style failures from applying an
  operation to a value of the wrong runtime type. -/
  | typeError
  /-- The `json.JSONDecodeError` escaping uncaught. -/
  | jsonDecodeError
  deriving DecidableEq, Repr

/-- Outcome of running a library operation: a normal return, a typed
`InvalidWaczError(reason)`, or an untyped Python exception. -/
inductive Res (α : Type) where
  | ok (a : α)
  | waczError (reason : String)
  | pyErr (e : PyErr)
  deriving DecidableEq, Repr

/-- Sequencing of Python statements: an exception propagates. -/
def Res.bind {α β : Type} : Res α → (α → Res β) → Res β
  | .ok a, f => f a
  | .waczError r, _ => .waczError r
  | .pyErr e, _ => .pyErr e

def Res.isOk {α : Type} : Res α → Bool
  | .ok _ => true
  | _ => false

def Res.isWaczError {α : Type} : Res α → Bool
  | .waczError _ => true
  | _ => false

def Res.isPyErr {α : Type} : Res α → Bool
  | .pyErr _ => true
  | _ => false

/-- Python `j == s` for a string literal `s`: true only for the equal
string; values of other types compare unequal without error. -/
def jsonEqStr (j : Json) (s : String) : Bool :=
  match j with
  | .str t => t = s
  | _ => false

/-- The substring test on character lists (Python `needle in hay` for
strings). -/
def charsContain (needle : List Char) : List Char → Bool
  | [] => needle.isPrefixOf []
  | c :: t => needle.isPrefixOf (c :: t) || charsContain needle t

/-- Python `k in j` for a string `k` (membership test).
On a dict it tests key membership; on a list, element equality; on a
string, the substring test; on other values it raises `TypeError`. -/
def pyContains (j : Json) (k : String) : Res Bool :=
  match j with
  | .obj kvs => .ok (kvs.any (fun p => p.1 = k))
  | .arr xs => .ok (xs.any (fun x => jsonEqStr x k))
  | .str s => .ok (charsContain k.data s.data)
  | _ => .pyErr .typeError

/-- Python `j[k]` for a string `k` (subscription).
On a dict it looks the key up (`KeyError` if absent); lists and strings
require integer indices (`TypeError`); other values are not
subscriptable (`TypeError`). -/
def pyGetItem (j : Json) (k : String) : Res Json :=
  match j with
  | .obj kvs =>
    match kvs.lookup k with
    | some v => .ok v
    | none => .pyErr (.keyError k)
  | _ => .pyErr .typeError

/-- A zip archive: the ordered list of members, each a name with raw
content (bytes, modelled as a string). -/
structure Zip where
  members : List (String × String)
  deriving DecidableEq, Repr

/-- The member names, `ZipFile.namelist()`. -/
def Zip.namelist (z : Zip) : List String :=
  z.members.map Prod.fst

/-- Reading a member, `ZipFile.open(name).read()`, as a total lookup: `none` when the name is
absent (`ZipFile.open` raises `KeyError` there). With duplicate names
CPython's `NameToInfo` keeps the last entry, hence the reversed lookup. -/
def Zip.openMember (z : Zip) (name : String) : Option String :=
  z.members.reverse.lookup name

/-- External collaborators, as consumed by the code:
`jsonParse` is `json.loads` (`none` = `JSONDecodeError`), `parseIso` is
`parse_iso_8601_date` on a string (`none` = `ValueError`), `hashSupported`
tells whether `hashlib.new` accepts the algorithm name, and `hashHex`
is the hex digest of the given content under the given algorithm. -/
structure Ext where
  jsonParse : String → Option Json
  parseIso : String → Option Int
  hashSupported : String → Bool
  hashHex : String → String → String

/-- Iterating a binary file object line by line: split the raw content
after every newline byte, a trailing chunk without a newline being a
final line, and an empty file yielding no lines. `cur` holds the
characters of the current line, most recent first. -/
def pyLinesAux (cur : List Char) : List Char → List (List Char)
  | [] => if cur.isEmpty then [] else [cur.reverse]
  | c :: rest =>
    if c = '\n' then (cur.reverse ++ ['\n']) :: pyLinesAux [] rest
    else pyLinesAux (c :: cur) rest

/-- The lines a Python binary file object yields for the given content. -/
def pyLines (s : String) : List String :=
  (pyLinesAux [] s.data).map String.mk

/-- The scan behind `h.split(sep, 1)` on `sep = ':'`: characters before
the first colon (reversed in `acc`) and the characters after it. -/
def splitColonAux (acc : List Char) : List Char → Option (String × String)
  | [] => none
  | c :: rest =>
    if c = ':' then some (String.mk acc.reverse, String.mk rest)
    else splitColonAux (c :: acc) rest

/-- Python `h.split(sep, 1)` followed by unpacking into two variables:
`none` when the separator is absent (the unpack raises `ValueError`). -/
def splitOnce (h : String) : Option (String × String) :=
  splitColonAux [] h.data

/-- The manifest loader `WaczArchive._get_datapackage`: locate `datapackage.json`, decode it,
and run the three required-key checks in source order. -/
def getDatapackage (ext : Ext) (zip : Zip) : Res Json :=
  match zip.openMember "datapackage.json" with
  | none => .waczError "Does not contain datapackage.json"
  | some content =>
    match ext.jsonParse content with
    | none => .waczError "datapackage.json is not a valid JSON file"
    | some dp =>
      -- if 'profile' not in datapackage or datapackage['profile'] != 'data-package'
      (pyContains dp "profile").bind fun hasProfile =>
      ((if hasProfile then
        (pyGetItem dp "profile").bind fun v =>
        if jsonEqStr v "data-package" then .ok () else
          .waczError "profile must be set to 'data-package'"
       else .waczError "profile must be set to 'data-package'" : Res Unit)).bind fun _ =>
      -- if 'wacz_version' not in datapackage
      (pyContains dp "wacz_version").bind fun hasVersion =>
      ((if hasVersion then .ok () else
        .waczError "wacz_version must be set" : Res Unit)).bind fun _ =>
      -- if 'resources' not in datapackage or not isinstance(..., list) or not ...
      (pyContains dp "resources").bind fun hasResources =>
      ((if hasResources then
        (pyGetItem dp "resources").bind fun v =>
        match v with
        | .arr xs =>
          if xs.isEmpty then .waczError "resources must be set to an non empty array"
          else .ok ()
        | _ => .waczError "resources must be set to an non empty array"
       else .waczError "resources must be set to an non empty array" : Res Unit)).bind fun _ =>
      .ok dp

/-- The per-line check `WaczArchive._validate_page`: decode one page line and require the
`url` and `ts` keys. A decode failure escapes as `json.JSONDecodeError`. -/
def validatePage (ext : Ext) (line : String) : Res Unit :=
  match ext.jsonParse line with
  | none => .pyErr .jsonDecodeError
  | some page =>
    (pyContains page "url").bind fun hasUrl =>
    if hasUrl then
      (pyContains page "ts").bind fun hasTs =>
      if hasTs then .ok () else .waczError "page does not contain ts property"
    else .waczError "page does not contain url property"

/-- The loop body of `WaczArchive._validate_pages` over the retained
lines (index 0 already skipped by the caller). -/
def validateLines (ext : Ext) : List String → Res Unit
  | [] => .ok ()
  | l :: ls => (validatePage ext l).bind fun _ => validateLines ext ls

/-- The regex test `re.fullmatch(pre ++ ".+" ++ suf)` for literal `pre`
and `suf`: the name is `pre`, then one or more characters none of which
is a newline (`.` does not match `'\n'`), then `suf`. -/
def dotPlusMatch (f pre suf : String) : Bool :=
  pre.data.isPrefixOf f.data && suf.data.reverse.isPrefixOf f.data.reverse &&
    decide (pre.length + suf.length < f.length) &&
    !(((f.data.drop pre.data.length).reverse.drop suf.data.length).contains '\n')

/-- The test `re.fullmatch(r'archive/.+\.warc(\.gz)?', f)`. -/
def warcMatch (f : String) : Bool :=
  dotPlusMatch f "archive/" ".warc" || dotPlusMatch f "archive/" ".warc.gz"

/-- The test `re.fullmatch(r'indexes/.+\.cdx(\.gz)?', f)`. -/
def cdxMatch (f : String) : Bool :=
  dotPlusMatch f "indexes/" ".cdx" || dotPlusMatch f "indexes/" ".cdx.gz"

/-- The structural validator `WaczArchive.validate`. -/
def validate (ext : Ext) (zip : Zip) : Res Unit :=
  let files := zip.namelist
  (getDatapackage ext zip).bind fun _ =>
  if (files.filter warcMatch).length = 0 then
    .waczError "Wacz must contain at least one web archive"
  else if (files.filter cdxMatch).length = 0 then
    .waczError "Wacz must contain at least one index file"
  else
    -- if 'pages/pages.jsonl' not in files: raise; then _validate_pages opens it
    match zip.openMember "pages/pages.jsonl" with
    | none => .waczError "Does not contain pages/pages.jsonl"
    | some pagesContent => validateLines ext ((pyLines pagesContent).drop 1)

/-- One date field of `get_metadata`: parse when the key is present,
translating the parser's `ValueError` (only) into `InvalidWaczError`. -/
def parseDateField (ext : Ext) (dp : Json) (k errMsg : String) : Res (Option Int) :=
  (pyContains dp k).bind fun has =>
  if has then
    (pyGetItem dp k).bind fun v =>
    match v with
    | .str s =>
      match ext.parseIso s with
      | some t => .ok (some t)
      | none => .waczError errMsg
    | _ => .pyErr .typeError  -- parser applied to a non-string: uncaught TypeError
  else .ok none

/-- Reading `datapackage[k] if k in datapackage else None` (an absent key and the
JSON value `null` both come out as Python `None`, i.e. `Json.null`). -/
def optField (dp : Json) (k : String) : Res Json :=
  (pyContains dp k).bind fun has =>
  if has then pyGetItem dp k else .ok Json.null

/-- The `WaczMetadata` dataclass: Python fields are untyped at runtime, so the optional
string-ish fields hold whatever JSON value the manifest supplied
(`Json.null` for Python `None`). -/
structure WaczMetadata where
  wacz_version : Json
  title : Json
  description : Json
  created : Option Int
  modified : Option Int
  software : Json
  main_page_url : Json
  main_page_date : Option Int

/-- The extractor `WaczArchive.get_metadata`. -/
def get_metadata (ext : Ext) (zip : Zip) : Res WaczMetadata :=
  (getDatapackage ext zip).bind fun dp =>
  (parseDateField ext dp "created" "created must be an iso date time string").bind fun created =>
  (parseDateField ext dp "modified" "modified must be an iso date time string").bind fun modified =>
  (parseDateField ext dp "main_page_date" "main_page_date must be an iso date time string").bind fun mainPageDate =>
  (pyGetItem dp "wacz_version").bind fun waczVersion =>
  (optField dp "title").bind fun title =>
  (optField dp "description").bind fun description =>
  (optField dp "software").bind fun software =>
  (optField dp "mainPageUrl").bind fun mainPageUrl =>
  .ok { wacz_version := waczVersion, title := title, description := description,
        created := created, modified := modified, software := software,
        main_page_url := mainPageUrl, main_page_date := mainPageDate }

/-- The `WaczPage` dataclass: as with the metadata, optional fields hold the raw JSON
value, `Json.null` standing for Python `None`. -/
structure WaczPage where
  url : Json
  ts : Int
  title : Json
  id : Json
  text : Json
  size : Json

/-- The loop body of `get_pages` for one retained line: `_validate_page`,
decode again, then build the `WaczPage` (the `ts` parse is NOT guarded,
so a parse failure escapes as an untyped `ValueError`). -/
def pageStep (ext : Ext) (line : String) : Res WaczPage :=
  (validatePage ext line).bind fun _ =>
  match ext.jsonParse line with
  | none => .pyErr .jsonDecodeError
  | some pd =>
    (pyGetItem pd "url").bind fun url =>
    (pyGetItem pd "ts").bind fun tsv =>
    ((match tsv with
     | .str s =>
       match ext.parseIso s with
       | some t => .ok t
       | none => .pyErr (.valueError "Invalid isoformat string")
     | _ => .pyErr .typeError : Res Int)).bind fun ts =>
    (optField pd "title").bind fun title =>
    (optField pd "id").bind fun id =>
    (optField pd "text").bind fun text =>
    (optField pd "size").bind fun size =>
    .ok { url := url, ts := ts, title := title, id := id, text := text, size := size }

/-- The `get_pages` loop over the retained lines, accumulating with
`pages.append(page)`. -/
def goPages (ext : Ext) : List String → List WaczPage → Res (List WaczPage)
  | [], acc => .ok acc
  | l :: ls, acc => (pageStep ext l).bind fun pg => goPages ext ls (acc ++ [pg])

/-- The extractor `WaczArchive.get_pages`. -/
def get_pages (ext : Ext) (zip : Zip) : Res (List WaczPage) :=
  match zip.openMember "pages/pages.jsonl" with
  | none => .waczError "Does not contain pages/pages.jsonl"
  | some pagesContent => goPages ext ((pyLines pagesContent).drop 1) []

/-- Writing `checksums[path] = value` on a Python dict kept as an insertion-ordered
association list: overwrite an existing key, else append. -/
def dictInsert (d : List (String × Bool)) (k : String) (v : Bool) : List (String × Bool) :=
  if d.any (fun p => p.1 = k) then
    d.map (fun p => if p.1 = k then (k, v) else p)
  else d ++ [(k, v)]

/-- The body of the `verify_checksums` loop for one resource descriptor:
`none` means the descriptor declared no hash (the `continue` branch),
`some (path, matches)` is the entry written into the result dict. -/
def checkResource (ext : Ext) (zip : Zip) (resource : Json) : Res (Option (String × Bool)) :=
  (pyContains resource "hash").bind fun hasHash =>
  if hasHash then
    (pyGetItem resource "hash").bind fun hv =>
    match hv with
    | .str h =>
      match splitOnce h with
      | none => .pyErr (.valueError "not enough values to unpack")
      | some (hashAlgo, hashValue) =>
        (pyGetItem resource "path").bind fun pv =>
        (match pv with
        | .str p =>
          match zip.openMember p with
          | none => .pyErr (.keyError p)  -- ZipFile.open: "There is no item named ..."
          | some content =>
            if ext.hashSupported hashAlgo then
              .ok (some (p, ext.hashHex hashAlgo content = hashValue))
            else .pyErr (.valueError "unsupported hash type")
        | .arr _ => .pyErr .typeError  -- unhashable member name
        | .obj _ => .pyErr .typeError
        | _ => .pyErr (.keyError "")   -- hashable non-string name is never a member
        : Res (Option (String × Bool)))
    | _ => .pyErr .typeError           -- .split on a non-string: AttributeError
  else .ok none

/-- The `verify_checksums` loop over the resource descriptors. -/
def goResources (ext : Ext) (zip : Zip) : List Json → List (String × Bool) → Res (List (String × Bool))
  | [], acc => .ok acc
  | r :: rs, acc =>
    (checkResource ext zip r).bind fun entry =>
    match entry with
    | none => goResources ext zip rs acc
    | some (p, b) => goResources ext zip rs (dictInsert acc p b)

/-- The verifier `WaczArchive.verify_checksums`. The loader guarantees `resources` is a
non-empty JSON list, so the non-list branch is unreachable. -/
def verify_checksums (ext : Ext) (zip : Zip) : Res (List (String × Bool)) :=
  (getDatapackage ext zip).bind fun dp =>
  (pyGetItem dp "resources").bind fun rs =>
  match rs with
  | .arr resources => goResources ext zip resources []
  | _ => .pyErr .typeError

/-! Concrete fixtures used to exercise the operations on explicit
archives. `exampleExt` fixes one behaviour of the external collaborators
(the JSON decoder, date parser and hash primitive) on the handful of
documents the fixture archives contain. -/

/-- A conformant manifest. -/
def dpOkJson : Json :=
  .obj [("profile", .str "data-package"), ("wacz_version", .str "1.1.1"),
        ("title", .str "valid-example"),
        ("created", .str "2023-07-04T12:25:53.900Z"),
        ("resources", .arr
          [.obj [("path", .str "archive/data.warc.gz"), ("hash", .str "sha256:goodhash")],
           .obj [("path", .str "indexes/index.cdx")]])]

/-- A manifest whose only flaw is an empty `resources` array. -/
def dpEmptyResJson : Json :=
  .obj [("profile", .str "data-package"), ("wacz_version", .str "1.1.1"),
        ("resources", .arr [])]

/-- A manifest whose `wacz_version` is present but the empty string. -/
def dpEmptyVersionJson : Json :=
  .obj [("profile", .str "data-package"), ("wacz_version", .str ""),
        ("resources", .arr [.obj [("path", .str "archive/data.warc.gz")]])]

/-- A manifest declaring a hash for a path absent from the archive. -/
def dpMissingPathJson : Json :=
  .obj [("profile", .str "data-package"), ("wacz_version", .str "1.1.1"),
        ("resources", .arr
          [.obj [("path", .str "missing.bin"), ("hash", .str "sha256:feed")]])]

/-- A manifest declaring a hash under an unsupported algorithm name. -/
def dpBadAlgoJson : Json :=
  .obj [("profile", .str "data-package"), ("wacz_version", .str "1.1.1"),
        ("resources", .arr
          [.obj [("path", .str "archive/data.warc.gz"), ("hash", .str "whirlpoolx:feed")]])]

/-- A manifest declaring a hash string that contains no colon. -/
def dpNoColonJson : Json :=
  .obj [("profile", .str "data-package"), ("wacz_version", .str "1.1.1"),
        ("resources", .arr
          [.obj [("path", .str "archive/data.warc.gz"), ("hash", .str "nocolonhash")]])]

/-- A manifest with an explicit `"title": null` entry. -/
def dpNullTitleJson : Json :=
  .obj [("profile", .str "data-package"), ("wacz_version", .str "1.1.1"),
        ("title", .null),
        ("resources", .arr [.obj [("path", .str "archive/data.warc.gz")]])]

/-- A checked-in behaviour of the external collaborators on the fixture
documents: every string below stands for the raw bytes of one member. -/
def exampleExt : Ext where
  jsonParse s :=
    if s = "dp-ok" then some dpOkJson
    else if s = "dp-empty-res" then some dpEmptyResJson
    else if s = "dp-empty-version" then some dpEmptyVersionJson
    else if s = "dp-missing-path" then some dpMissingPathJson
    else if s = "dp-bad-algo" then some dpBadAlgoJson
    else if s = "dp-no-colon" then some dpNoColonJson
    else if s = "dp-null-title" then some dpNullTitleJson
    else if s = "hdr\n" then some (.obj [("format", .str "json-pages-1.0")])
    else if s = "page-ok\n" then
      some (.obj [("url", .str "https://example.org/"), ("ts", .str "2023-07-04T12:25:55.274Z")])
    else if s = "page-no-url\n" then
      some (.obj [("ts", .str "2023-07-04T12:25:55.274Z")])
    else if s = "page-no-ts\n" then
      some (.obj [("url", .str "https://example.org/")])
    else if s = "page-null-title\n" then
      some (.obj [("url", .str "https://example.org/"),
                  ("ts", .str "2023-07-04T12:25:55.274Z"), ("title", .null)])
    else none
  parseIso s :=
    if s = "2023-07-04T12:25:53.900Z" then some 1688473553
    else if s = "2023-07-04T12:25:55.274Z" then some 1688473555
    else none
  hashSupported a := a = "sha256" || a = "md5"
  hashHex a c := if a = "sha256" && c = "warc-bytes" then "goodhash" else "otherhash"

/-- A conformant archive. -/
def zipValid : Zip :=
  ⟨[("datapackage.json", "dp-ok"), ("archive/data.warc.gz", "warc-bytes"),
    ("indexes/index.cdx", "cdx-bytes"), ("pages/pages.jsonl", "hdr\npage-ok\n")]⟩

/-- Valid manifest, but no `archive/*.warc[.gz]` member. -/
def zipNoWarc : Zip :=
  ⟨[("datapackage.json", "dp-ok"), ("indexes/index.cdx", "cdx-bytes"),
    ("pages/pages.jsonl", "hdr\npage-ok\n")]⟩

/-- No `datapackage.json` member at all. -/
def zipNoDatapackage : Zip :=
  ⟨[("archive/data.warc.gz", "warc-bytes"), ("indexes/index.cdx", "cdx-bytes"),
    ("pages/pages.jsonl", "hdr\npage-ok\n")]⟩

/-- Manifest with an empty `resources` array, everything else in place. -/
def zipEmptyResources : Zip :=
  ⟨[("datapackage.json", "dp-empty-res"), ("archive/data.warc.gz", "warc-bytes"),
    ("indexes/index.cdx", "cdx-bytes"), ("pages/pages.jsonl", "hdr\npage-ok\n")]⟩

/-- Manifest whose `wacz_version` is the empty string. -/
def zipEmptyVersion : Zip :=
  ⟨[("datapackage.json", "dp-empty-version"), ("archive/data.warc.gz", "warc-bytes"),
    ("indexes/index.cdx", "cdx-bytes"), ("pages/pages.jsonl", "hdr\npage-ok\n")]⟩

/-- Manifest declares a hash for `missing.bin`, which is not a member. -/
def zipMissingPath : Zip :=
  ⟨[("datapackage.json", "dp-missing-path"), ("archive/data.warc.gz", "warc-bytes"),
    ("indexes/index.cdx", "cdx-bytes"), ("pages/pages.jsonl", "hdr\npage-ok\n")]⟩

/-- Manifest declares a hash under an unsupported algorithm. -/
def zipBadAlgo : Zip :=
  ⟨[("datapackage.json", "dp-bad-algo"), ("archive/data.warc.gz", "warc-bytes"),
    ("indexes/index.cdx", "cdx-bytes"), ("pages/pages.jsonl", "hdr\npage-ok\n")]⟩

/-- Manifest declares a hash string with no colon. -/
def zipNoColon : Zip :=
  ⟨[("datapackage.json", "dp-no-colon"), ("archive/data.warc.gz", "warc-bytes"),
    ("indexes/index.cdx", "cdx-bytes"), ("pages/pages.jsonl", "hdr\npage-ok\n")]⟩

/-- Conformant archive whose second page line is not parseable JSON. -/
def zipBadPageJson : Zip :=
  ⟨[("datapackage.json", "dp-ok"), ("archive/data.warc.gz", "warc-bytes"),
    ("indexes/index.cdx", "cdx-bytes"), ("pages/pages.jsonl", "hdr\ngarbage\n")]⟩

/-- Conformant archive whose second page line lacks the `url` key. -/
def zipPageNoUrl : Zip :=
  ⟨[("datapackage.json", "dp-ok"), ("archive/data.warc.gz", "warc-bytes"),
    ("indexes/index.cdx", "cdx-bytes"), ("pages/pages.jsonl", "hdr\npage-no-url\n")]⟩

/-- Conformant archive whose second page line lacks the `ts` key. -/
def zipPageNoTs : Zip :=
  ⟨[("datapackage.json", "dp-ok"), ("archive/data.warc.gz", "warc-bytes"),
    ("indexes/index.cdx", "cdx-bytes"), ("pages/pages.jsonl", "hdr\npage-no-ts\n")]⟩

/-- Conformant archive whose page listing is a lone header line. -/
def zipHeaderOnly : Zip :=
  ⟨[("datapackage.json", "dp-ok"), ("archive/data.warc.gz", "warc-bytes"),
    ("indexes/index.cdx", "cdx-bytes"), ("pages/pages.jsonl", "hdr\n")]⟩

/-- Conformant archive whose manifest carries `"title": null`. -/
def zipNullTitle : Zip :=
  ⟨[("datapackage.json", "dp-null-title"), ("archive/data.warc.gz", "warc-bytes"),
    ("indexes/index.cdx", "cdx-bytes"), ("pages/pages.jsonl", "hdr\npage-null-title\n")]⟩

/-- A date field is either absent or a string the date parser accepts. -/
def dateOk (ext : Ext) (kvs : List (String × Json)) (k : String) : Prop :=
  kvs.lookup k = none ∨ ∃ s t, kvs.lookup k = some (.str s) ∧ ext.parseIso s = some t

/-- A resource descriptor the checksum loop can process without raising:
either no declared hash, or a colon-separated hash whose path exists in
the container under a supported algorithm. -/
def goodResource (ext : Ext) (zip : Zip) (r : Json) : Prop :=
  ∃ rkvs, r = Json.obj rkvs ∧
    (rkvs.lookup "hash" = none ∨
     ∃ hsh algo hx p content, rkvs.lookup "hash" = some (.str hsh) ∧
       splitOnce hsh = some (algo, hx) ∧ rkvs.lookup "path" = some (.str p) ∧
       zip.openMember p = some content ∧ ext.hashSupported algo = true)

/-- Some resource descriptor in `rs` declares a hash for path `p`. -/
def declaresHashPath (rs : List Json) (p : String) : Prop :=
  ∃ rkvs hsh, Json.obj rkvs ∈ rs ∧ rkvs.lookup "path" = some (.str p) ∧
    rkvs.lookup "hash" = some (.str hsh)

/-- The result-map entry `(p, b)` is justified by some resource: `b` is
the case-sensitive comparison of the computed digest of that member's
contents with the text after the first colon of the declared hash. -/
def entryWitness (ext : Ext) (zip : Zip) (rs : List Json) (p : String) (b : Bool) : Prop :=
  ∃ rkvs hsh algo hx content, Json.obj rkvs ∈ rs ∧
    rkvs.lookup "path" = some (.str p) ∧ rkvs.lookup "hash" = some (.str hsh) ∧
    splitOnce hsh = some (algo, hx) ∧ zip.openMember p = some content ∧
    b = decide (ext.hashHex algo content = hx)

@[simp] theorem Res.bind_ok {α β : Type} (a : α) (f : α → Res β) :
    (Res.ok a).bind f = f a := rfl

@[simp] theorem Res.bind_waczError {α β : Type} (r : String) (f : α → Res β) :
    (Res.waczError r).bind f = .waczError r := rfl

@[simp] theorem Res.bind_pyErr {α β : Type} (e : PyErr) (f : α → Res β) :
    (Res.pyErr e).bind f = .pyErr e := rfl

theorem Res.bind_eq_ok {α β : Type} {x : Res α} {f : α → Res β} {b : β} :
    x.bind f = .ok b ↔ ∃ a, x = .ok a ∧ f a = .ok b := by
  cases x <;> simp [Res.bind]

/-- Only a JSON object can pass the manifest loader: inversion of
`getDatapackage ... = .ok dp` into the content of the three checks. -/
theorem getDatapackage_ok_inv {ext : Ext} {zip : Zip} {dp : Json}
    (h : getDatapackage ext zip = .ok dp) :
    ∃ content kvs, zip.openMember "datapackage.json" = some content ∧
      ext.jsonParse content = some dp ∧ dp = .obj kvs ∧
      kvs.lookup "profile" = some (.str "data-package") ∧
      kvs.any (fun p => p.1 = "wacz_version") = true ∧
      ∃ xs, kvs.lookup "resources" = some (.arr xs) ∧ xs ≠ [] := by
  unfold getDatapackage at h
  split at h
  next => exact absurd h (by simp)
  next content hzip =>
  split at h
  next => exact absurd h (by simp)
  next dp' hparse =>
  rw [Res.bind_eq_ok] at h
  obtain ⟨hasProfile, hpc, h⟩ := h
  rw [Res.bind_eq_ok] at h
  obtain ⟨u1, hprof, h⟩ := h
  rw [Res.bind_eq_ok] at h
  obtain ⟨hasVersion, hvc, h⟩ := h
  rw [Res.bind_eq_ok] at h
  obtain ⟨u2, hver, h⟩ := h
  rw [Res.bind_eq_ok] at h
  obtain ⟨hasResources, hrc, h⟩ := h
  rw [Res.bind_eq_ok] at h
  obtain ⟨u3, hres, h⟩ := h
  cases h
  cases dp with
  | obj kvs =>
    refine ⟨content, kvs, hzip, hparse, rfl, ?_, ?_, ?_⟩
    · -- profile key maps to the literal string "data-package"
      split at hprof
      · simp only [pyGetItem] at hprof
        split at hprof
        next v hl =>
          rw [Res.bind_ok] at hprof
          split at hprof
          next hveq =>
            cases v <;> simp [jsonEqStr] at hveq
            subst hveq; exact hl
          next => exact absurd hprof (by simp)
        next => exact absurd hprof (by simp)
      · exact absurd hprof (by simp)
    · -- the wacz_version key is present
      simp only [pyContains] at hvc
      cases hvc
      split at hver
      next hw => exact hw
      next => exact absurd hver (by simp)
    · -- resources maps to a non-empty JSON list
      split at hres
      · simp only [pyGetItem] at hres
        split at hres
        next rv hrl =>
          rw [Res.bind_ok] at hres
          split at hres
          next xs =>
            split at hres
            next => exact absurd hres (by simp)
            next hxs =>
              exact ⟨xs, hrl, by simpa [List.isEmpty_iff] using hxs⟩
          next => exact absurd hres (by simp)
        next => exact absurd hres (by simp)
      · exact absurd hres (by simp)
  | null => simp [pyContains] at hpc
  | bool b => simp [pyContains] at hpc
  | num n => simp [pyContains] at hpc
  | str s =>
    cases hpc
    split at hprof
    · simp [pyGetItem] at hprof
    · exact absurd hprof (by simp)
  | arr xs =>
    cases hpc
    split at hprof
    · simp [pyGetItem] at hprof
    · exact absurd hprof (by simp)

theorem Res.bind_assoc {α β γ : Type} (x : Res α) (f : α → Res β) (g : β → Res γ) :
    (x.bind f).bind g = x.bind fun a => (f a).bind g := by
  cases x <;> rfl

/-- Key membership in a JSON object coincides with lookup success. -/
theorem any_key_eq_lookup_isSome (kvs : List (String × Json)) (k : String) :
    kvs.any (fun p => p.1 = k) = (kvs.lookup k).isSome := by
  induction kvs with
  | nil => rfl
  | cons p t ih =>
    simp only [List.any_cons, List.lookup]
    by_cases h : k = p.1
    · simp [h]
    · have hb : (k == p.1) = false := beq_eq_false_iff_ne.mpr h
      have h2 : (p.1 = k) = False := eq_false fun e => h e.symm
      simp [hb, h2, ih]

/-- A name is absent from `namelist()` exactly when opening it fails. -/
theorem openMember_eq_none_iff (z : Zip) (n : String) :
    z.openMember n = none ↔ n ∉ z.namelist := by
  unfold Zip.openMember Zip.namelist
  rw [List.lookup_eq_none_iff]
  constructor
  · intro h hmem
    obtain ⟨p, hp, hpn⟩ := List.mem_map.mp hmem
    have hne := h p (List.mem_reverse.mpr hp)
    simp [hpn] at hne
  · intro h p hp
    have hmem : p.1 ∈ z.members.map Prod.fst :=
      List.mem_map.mpr ⟨p, List.mem_reverse.mp hp, rfl⟩
    simp only [bne_iff_ne, ne_eq]
    intro he
    exact h (he ▸ hmem)

theorem validatePage_ok_iff {ext : Ext} {l : String} :
    validatePage ext l = .ok () ↔
      ∃ j, ext.jsonParse l = some j ∧
        pyContains j "url" = .ok true ∧ pyContains j "ts" = .ok true := by
  unfold validatePage
  cases hp : ext.jsonParse l with
  | none => simp
  | some j =>
    simp only [Option.some.injEq]
    constructor
    · intro h
      cases hu : pyContains j "url" with
      | ok b =>
        rw [hu, Res.bind_ok] at h
        cases b with
        | true =>
          rw [if_pos rfl] at h
          cases ht : pyContains j "ts" with
          | ok b' =>
            rw [ht, Res.bind_ok] at h
            cases b' with
            | true => exact ⟨j, rfl, hu, ht⟩
            | false => simp at h
          | waczError r => simp [ht] at h
          | pyErr e => simp [ht] at h
        | false => simp at h
      | waczError r => simp [hu] at h
      | pyErr e => simp [hu] at h
    · rintro ⟨j', hj, hu, ht⟩
      cases hj
      rw [hu, Res.bind_ok, if_pos rfl, ht, Res.bind_ok, if_pos rfl]

theorem validateLines_ok_iff {ext : Ext} {ls : List String} :
    validateLines ext ls = .ok () ↔ ∀ l ∈ ls, validatePage ext l = .ok () := by
  induction ls with
  | nil => simp [validateLines]
  | cons l t ih =>
    unfold validateLines
    constructor
    · intro h
      cases hv : validatePage ext l with
      | ok u =>
        rw [hv, Res.bind_ok] at h
        intro x hx
        rcases List.mem_cons.mp hx with hx | hx
        · cases u; exact hx ▸ hv
        · exact ih.mp h x hx
      | waczError r => simp [hv] at h
      | pyErr e => simp [hv] at h
    · intro h
      rw [h l (List.mem_cons_self l t), Res.bind_ok]
      exact ih.mpr fun x hx => h x (List.mem_cons_of_mem l hx)

theorem getDatapackage_missing {ext : Ext} {zip : Zip}
    (h : zip.openMember "datapackage.json" = none) :
    getDatapackage ext zip = .waczError "Does not contain datapackage.json" := by
  simp only [getDatapackage, h]

theorem getDatapackage_profileBad {ext : Ext} {zip : Zip} {content : String}
    {kvs : List (String × Json)}
    (hzip : zip.openMember "datapackage.json" = some content)
    (hparse : ext.jsonParse content = some (.obj kvs))
    (hbad : kvs.lookup "profile" ≠ some (.str "data-package")) :
    getDatapackage ext zip = .waczError "profile must be set to 'data-package'" := by
  simp only [getDatapackage, hzip, hparse, pyContains, pyGetItem, Res.bind_ok,
    any_key_eq_lookup_isSome]
  cases hl : kvs.lookup "profile" with
  | none => simp
  | some v =>
    rw [hl] at hbad
    have hv : jsonEqStr v "data-package" = false := by
      cases v <;> simp [jsonEqStr]
      intro he
      exact hbad (by rw [he])
    simp [hv]

theorem getDatapackage_versionMissing {ext : Ext} {zip : Zip} {content : String}
    {kvs : List (String × Json)}
    (hzip : zip.openMember "datapackage.json" = some content)
    (hparse : ext.jsonParse content = some (.obj kvs))
    (hprof : kvs.lookup "profile" = some (.str "data-package"))
    (hver : kvs.lookup "wacz_version" = none) :
    getDatapackage ext zip = .waczError "wacz_version must be set" := by
  simp only [getDatapackage, hzip, hparse, pyContains, pyGetItem, Res.bind_ok,
    any_key_eq_lookup_isSome, hprof, hver]
  simp [jsonEqStr]

theorem getDatapackage_resourcesBad {ext : Ext} {zip : Zip} {content : String}
    {kvs : List (String × Json)}
    (hzip : zip.openMember "datapackage.json" = some content)
    (hparse : ext.jsonParse content = some (.obj kvs))
    (hprof : kvs.lookup "profile" = some (.str "data-package"))
    (hver : (kvs.lookup "wacz_version").isSome = true)
    (hres : ∀ xs, kvs.lookup "resources" = some (.arr xs) → xs = []) :
    getDatapackage ext zip = .waczError "resources must be set to an non empty array" := by
  simp only [getDatapackage, hzip, hparse, pyContains, pyGetItem, Res.bind_ok,
    any_key_eq_lookup_isSome, hprof, hver]
  simp only [jsonEqStr, if_pos, Option.isSome_some, if_true, Res.bind_ok]
  cases hl : kvs.lookup "resources" with
  | none => simp
  | some v =>
    cases v with
    | arr xs => have := hres xs hl; subst this; simp
    | null => simp
    | bool b => simp
    | num n => simp
    | str s => simp
    | obj kvs' => simp

theorem getDatapackage_ok_of {ext : Ext} {zip : Zip} {content : String}
    {kvs : List (String × Json)}
    (hzip : zip.openMember "datapackage.json" = some content)
    (hparse : ext.jsonParse content = some (.obj kvs))
    (hprof : kvs.lookup "profile" = some (.str "data-package"))
    (hver : (kvs.lookup "wacz_version").isSome = true)
    (hres : ∃ xs, kvs.lookup "resources" = some (.arr xs) ∧ xs ≠ []) :
    getDatapackage ext zip = .ok (.obj kvs) := by
  obtain ⟨xs, hrl, hne⟩ := hres
  simp only [getDatapackage, hzip, hparse, pyContains, pyGetItem, Res.bind_ok,
    any_key_eq_lookup_isSome, hprof, hver, hrl]
  simp [jsonEqStr, List.isEmpty_iff, hne]

theorem filter_length_zero_iff_any_false {α : Type} (p : α → Bool) (l : List α) :
    ((l.filter p).length = 0) ↔ l.any p = false := by
  simp [List.length_eq_zero, List.filter_eq_nil_iff, List.any_eq_false]

theorem validateLines_append (ext : Ext) (xs ys : List String) :
    validateLines ext (xs ++ ys) =
      (validateLines ext xs).bind fun _ => validateLines ext ys := by
  induction xs with
  | nil => simp [validateLines]
  | cons l t ih => simp [validateLines, ih, Res.bind_assoc]

/-- C1: for every archive, `validate()` either returns without error or
fails with the first violation found, in this exact order: (1) manifest
loading with its internal checks in order (`profile` equals
`"data-package"`, `wacz_version` present, `resources` a non-empty list);
(2) at least one member fully matching `archive/<anything>.warc[.gz]`;
(3) at least one member fully matching `indexes/<anything>.cdx[.gz]`;
(4) member `pages/pages.jsonl` present; (5) every non-header page line
parses and has `url` and `ts`. Each failure conjunct assumes only the
earlier checks, so the earliest violated check determines the error. -/
theorem validate_first_violation_in_order (ext : Ext) (zip : Zip) :
    (∀ r, getDatapackage ext zip = .waczError r → validate ext zip = .waczError r) ∧
    (∀ content kvs, zip.openMember "datapackage.json" = some content →
      ext.jsonParse content = some (.obj kvs) →
      (kvs.lookup "profile" ≠ some (.str "data-package") →
        validate ext zip = .waczError "profile must be set to 'data-package'") ∧
      (kvs.lookup "profile" = some (.str "data-package") →
        kvs.lookup "wacz_version" = none →
        validate ext zip = .waczError "wacz_version must be set") ∧
      (kvs.lookup "profile" = some (.str "data-package") →
        (kvs.lookup "wacz_version").isSome = true →
        (∀ xs, kvs.lookup "resources" = some (.arr xs) → xs = []) →
        validate ext zip = .waczError "resources must be set to an non empty array")) ∧
    (∀ dp, getDatapackage ext zip = .ok dp →
      (zip.namelist.any warcMatch = false →
        validate ext zip = .waczError "Wacz must contain at least one web archive") ∧
      (zip.namelist.any warcMatch = true → zip.namelist.any cdxMatch = false →
        validate ext zip = .waczError "Wacz must contain at least one index file") ∧
      (zip.namelist.any warcMatch = true → zip.namelist.any cdxMatch = true →
        zip.openMember "pages/pages.jsonl" = none →
        validate ext zip = .waczError "Does not contain pages/pages.jsonl")) ∧
    (validate ext zip = .ok () ↔
      (∃ dp, getDatapackage ext zip = .ok dp) ∧
      zip.namelist.any warcMatch = true ∧ zip.namelist.any cdxMatch = true ∧
      ∃ pc, zip.openMember "pages/pages.jsonl" = some pc ∧
        ∀ l ∈ (pyLines pc).drop 1, ∃ j, ext.jsonParse l = some j ∧
          pyContains j "url" = .ok true ∧ pyContains j "ts" = .ok true) := by
  refine ⟨?_, ?_, ?_, ?_⟩
  · intro r h
    simp [validate, h]
  · intro content kvs hzip hparse
    refine ⟨?_, ?_, ?_⟩
    · intro hbad
      simp [validate, getDatapackage_profileBad hzip hparse hbad]
    · intro hprof hver
      simp [validate, getDatapackage_versionMissing hzip hparse hprof hver]
    · intro hprof hver hres
      simp [validate, getDatapackage_resourcesBad hzip hparse hprof hver hres]
  · intro dp hdp
    refine ⟨?_, ?_, ?_⟩
    · intro hwarc
      rw [validate, hdp, Res.bind_ok,
        if_pos ((filter_length_zero_iff_any_false _ _).mpr hwarc)]
    · intro hwarc hcdx
      have hw : ¬ (zip.namelist.filter warcMatch).length = 0 := by
        rw [filter_length_zero_iff_any_false]; simp [hwarc]
      rw [validate, hdp, Res.bind_ok, if_neg hw,
        if_pos ((filter_length_zero_iff_any_false _ _).mpr hcdx)]
    · intro hwarc hcdx hpages
      have hw : ¬ (zip.namelist.filter warcMatch).length = 0 := by
        rw [filter_length_zero_iff_any_false]; simp [hwarc]
      have hc : ¬ (zip.namelist.filter cdxMatch).length = 0 := by
        rw [filter_length_zero_iff_any_false]; simp [hcdx]
      rw [validate, hdp, Res.bind_ok, if_neg hw, if_neg hc, hpages]
  · constructor
    · intro h
      cases hdp : getDatapackage ext zip with
      | ok dp =>
        rw [validate, hdp, Res.bind_ok] at h
        split at h
        · exact absurd h (by simp)
        · split at h
          · exact absurd h (by simp)
          · split at h
            next => exact absurd h (by simp)
            next pc hpc =>
              refine ⟨⟨dp, rfl⟩, ?_, ?_, pc, hpc, ?_⟩
              · cases hw : zip.namelist.any warcMatch with
                | true => rfl
                | false =>
                  exact absurd ((filter_length_zero_iff_any_false _ _).mpr hw)
                    (by assumption)
              · cases hc : zip.namelist.any cdxMatch with
                | true => rfl
                | false =>
                  exact absurd ((filter_length_zero_iff_any_false _ _).mpr hc)
                    (by assumption)
              · intro l hl
                exact validatePage_ok_iff.mp (validateLines_ok_iff.mp h l hl)
      | waczError r => rw [validate, hdp, Res.bind_waczError] at h; exact absurd h (by simp)
      | pyErr e => rw [validate, hdp, Res.bind_pyErr] at h; exact absurd h (by simp)
    · rintro ⟨⟨dp, hdp⟩, hwarc, hcdx, pc, hpc, hlines⟩
      have hw : ¬ (zip.namelist.filter warcMatch).length = 0 := by
        rw [filter_length_zero_iff_any_false]; simp [hwarc]
      have hc : ¬ (zip.namelist.filter cdxMatch).length = 0 := by
        rw [filter_length_zero_iff_any_false]; simp [hcdx]
      rw [validate, hdp, Res.bind_ok, if_neg hw, if_neg hc, hpc]
      exact validateLines_ok_iff.mpr fun l hl => validatePage_ok_iff.mpr (hlines l hl)

/-- Witness for C1 at a concrete archive: the manifest is valid but no
member matches `archive/*.warc[.gz]`, so `validate` reports the missing
web archive (the later pages check is not reached). -/
theorem validate_first_violation_in_order_witness :
    validate exampleExt zipNoWarc = .waczError "Wacz must contain at least one web archive" :=
  ((validate_first_violation_in_order exampleExt zipNoWarc).2.2.1 dpOkJson rfl).1 (by decide)

/-- C6: a missing `datapackage.json` member makes both `validate()` and
`get_metadata()` fail with reason exactly `"Does not contain
datapackage.json"`; and, the earlier manifest checks passing, an absent /
non-list / empty `resources` value makes `validate()` fail with reason
exactly `"resources must be set to an non empty array"`. -/
theorem missing_manifest_and_empty_resources_reasons (ext : Ext) (zip : Zip) :
    (zip.openMember "datapackage.json" = none →
      validate ext zip = .waczError "Does not contain datapackage.json" ∧
      get_metadata ext zip = .waczError "Does not contain datapackage.json") ∧
    (∀ content kvs, zip.openMember "datapackage.json" = some content →
      ext.jsonParse content = some (.obj kvs) →
      kvs.lookup "profile" = some (.str "data-package") →
      (kvs.lookup "wacz_version").isSome = true →
      (∀ xs, kvs.lookup "resources" = some (.arr xs) → xs = []) →
      validate ext zip = .waczError "resources must be set to an non empty array") := by
  constructor
  · intro h
    have hd : getDatapackage ext zip = .waczError "Does not contain datapackage.json" :=
      getDatapackage_missing h
    exact ⟨by simp [validate, hd], by simp [get_metadata, hd]⟩
  · intro content kvs hzip hparse hprof hver hres
    simp [validate, getDatapackage_resourcesBad hzip hparse hprof hver hres]

/-- Witness for C6: concrete archives realizing both failure reasons. -/
theorem missing_manifest_and_empty_resources_reasons_witness :
    validate exampleExt zipNoDatapackage = .waczError "Does not contain datapackage.json" ∧
    get_metadata exampleExt zipNoDatapackage = .waczError "Does not contain datapackage.json" ∧
    validate exampleExt zipEmptyResources = .waczError "resources must be set to an non empty array" := by
  refine ⟨((missing_manifest_and_empty_resources_reasons exampleExt zipNoDatapackage).1 rfl).1,
    ((missing_manifest_and_empty_resources_reasons exampleExt zipNoDatapackage).1 rfl).2,
    (missing_manifest_and_empty_resources_reasons exampleExt zipEmptyResources).2
      "dp-empty-res"
      [("profile", .str "data-package"), ("wacz_version", .str "1.1.1"), ("resources", .arr [])]
      rfl rfl rfl rfl ?_⟩
  intro xs h
  rw [show List.lookup "resources"
      [("profile", Json.str "data-package"), ("wacz_version", Json.str "1.1.1"),
       ("resources", Json.arr [])] = some (Json.arr []) from rfl] at h
  injection h with h'
  injection h' with h''
  exact h''.symm

/-- C8 (counterexample): a manifest whose `wacz_version` is present but
equal to the empty string passes the loader, refuting "for every manifest
that passes loading, `wacz_version` is a non-empty string". -/
theorem loader_accepts_empty_version :
    getDatapackage exampleExt zipEmptyVersion = .ok dpEmptyVersionJson ∧
    pyGetItem dpEmptyVersionJson "wacz_version" = .ok (.str "") := ⟨rfl, rfl⟩

/-- C8 (amended): the loader checks only that the `wacz_version` key is
present; whenever a manifest passes loading, the key is a member of the
document (its value unconstrained). -/
theorem loader_checks_version_presence_only {ext : Ext} {zip : Zip} {dp : Json}
    (h : getDatapackage ext zip = .ok dp) :
    pyContains dp "wacz_version" = .ok true := by
  obtain ⟨c, kvs, _, _, hobj, _, hany, _⟩ := getDatapackage_ok_inv h
  subst hobj
  simp [pyContains, hany]

/-- Witness for the amended C8 at the empty-version fixture. -/
theorem loader_checks_version_presence_only_witness :
    pyContains dpEmptyVersionJson "wacz_version" = .ok true :=
  @loader_checks_version_presence_only exampleExt zipEmptyVersion dpEmptyVersionJson rfl

theorem goPages_acc (ext : Ext) (ls : List String) :
    ∀ acc, goPages ext ls acc = (goPages ext ls []).bind fun pgs => .ok (acc ++ pgs) := by
  induction ls with
  | nil => intro acc; simp [goPages]
  | cons l t ih =>
    intro acc
    simp only [goPages]
    cases hp : pageStep ext l with
    | ok pg =>
      simp only [Res.bind_ok, List.nil_append]
      rw [ih (acc ++ [pg]), ih [pg]]
      cases hg : goPages ext t [] <;> simp
    | waczError r => simp
    | pyErr e => simp

theorem goPages_forall₂ {ext : Ext} {ls : List String} {pgs : List WaczPage}
    (h : List.Forall₂ (fun l pg => pageStep ext l = .ok pg) ls pgs) :
    goPages ext ls [] = .ok pgs := by
  induction h with
  | nil => rfl
  | cons hlp _ ih =>
    simp only [goPages, hlp, Res.bind_ok]
    rw [goPages_acc, ih]
    rfl

/-- C7: line 0 of `pages/pages.jsonl` is always skipped: the result of
`get_pages` is a function of the tail lines alone (the header `h` does
not occur in the conclusion), a header-only listing yields `.ok []`
(and `validate` succeeds when the other checks pass), and the retained
lines produce their records in file order. -/
theorem pages_header_skipped_and_order (ext : Ext) (zip : Zip) :
    (∀ pc h rest, zip.openMember "pages/pages.jsonl" = some pc →
      pyLines pc = h :: rest →
      get_pages ext zip = goPages ext rest [] ∧
      (rest = [] → get_pages ext zip = .ok []) ∧
      (∀ pgs, List.Forall₂ (fun l pg => pageStep ext l = .ok pg) rest pgs →
        get_pages ext zip = .ok pgs)) ∧
    (∀ dp pc h, getDatapackage ext zip = .ok dp →
      zip.namelist.any warcMatch = true → zip.namelist.any cdxMatch = true →
      zip.openMember "pages/pages.jsonl" = some pc →
      pyLines pc = [h] →
      validate ext zip = .ok ()) := by
  constructor
  · intro pc h rest hpc hlines
    have hbase : get_pages ext zip = goPages ext rest [] := by
      simp [get_pages, hpc, hlines]
    refine ⟨hbase, ?_, ?_⟩
    · intro hrest
      rw [hbase, hrest]; rfl
    · intro pgs hf
      rw [hbase]; exact goPages_forall₂ hf
  · intro dp pc h hdp hwarc hcdx hpc hlines
    have hw : ¬ (zip.namelist.filter warcMatch).length = 0 := by
      rw [filter_length_zero_iff_any_false]; simp [hwarc]
    have hc : ¬ (zip.namelist.filter cdxMatch).length = 0 := by
      rw [filter_length_zero_iff_any_false]; simp [hcdx]
    rw [validate, hdp, Res.bind_ok, if_neg hw, if_neg hc, hpc]
    simp [hlines, validateLines]

/-- Witness for C7: the header-only fixture yields no pages and validates;
the conformant fixture returns its single page, in order. -/
theorem pages_header_skipped_and_order_witness :
    get_pages exampleExt zipHeaderOnly = .ok [] ∧
    validate exampleExt zipHeaderOnly = .ok () ∧
    get_pages exampleExt zipValid =
      .ok [{ url := .str "https://example.org/", ts := 1688473555,
             title := .null, id := .null, text := .null, size := .null }] := by
  refine ⟨((pages_header_skipped_and_order exampleExt zipHeaderOnly).1
      "hdr\n" "hdr\n" [] rfl (by decide)).2.1 rfl,
    (pages_header_skipped_and_order exampleExt zipHeaderOnly).2
      dpOkJson "hdr\n" "hdr\n" rfl (by decide) (by decide) rfl (by decide),
    ((pages_header_skipped_and_order exampleExt zipValid).1
      "hdr\npage-ok\n" "hdr\n" ["page-ok\n"] rfl (by decide)).2.2 _ ?_⟩
  exact List.Forall₂.cons rfl List.Forall₂.nil

theorem parseDateField_lookup_none {ext : Ext} {kvs : List (String × Json)} {k msg : String}
    (h : kvs.lookup k = none) :
    parseDateField ext (.obj kvs) k msg = .ok none := by
  simp [parseDateField, pyContains, any_key_eq_lookup_isSome, h]

theorem parseDateField_lookup_str {ext : Ext} {kvs : List (String × Json)} {k msg s : String}
    (h : kvs.lookup k = some (.str s)) :
    parseDateField ext (.obj kvs) k msg =
      (match ext.parseIso s with
       | some t => .ok (some t)
       | none => .waczError msg) := by
  simp [parseDateField, pyContains, pyGetItem, any_key_eq_lookup_isSome, h]

theorem optField_obj (kvs : List (String × Json)) (k : String) :
    optField (.obj kvs) k = .ok ((kvs.lookup k).getD Json.null) := by
  simp only [optField, pyContains, any_key_eq_lookup_isSome, Res.bind_ok, pyGetItem]
  cases h : kvs.lookup k with
  | none => simp
  | some v => simp

theorem parseDateField_of_dateOk {ext : Ext} {kvs : List (String × Json)} {k : String}
    (msg : String) (h : dateOk ext kvs k) :
    ∃ o, parseDateField ext (.obj kvs) k msg = .ok o := by
  rcases h with h | ⟨s, t, hl, hp⟩
  · exact ⟨none, parseDateField_lookup_none h⟩
  · exact ⟨some t, by rw [parseDateField_lookup_str hl, hp]⟩

/-- C5: for every archive whose manifest passes loading, `get_metadata`
copies `wacz_version` verbatim; each optional string-ish field
(`title`, `description`, `software`, `mainPageUrl`) is the manifest value
when present and None when absent; each date field (`created`,
`modified`, `main_page_date`) is None when absent and the ISO-parsed
timestamp when present as a parseable string; and a present date string
that fails to parse yields the typed `InvalidWaczError` naming the field,
checked in source order. -/
theorem get_metadata_field_semantics (ext : Ext) (zip : Zip)
    (kvs : List (String × Json))
    (hdp : getDatapackage ext zip = .ok (.obj kvs)) :
    (∀ s, kvs.lookup "created" = some (.str s) → ext.parseIso s = none →
      get_metadata ext zip = .waczError "created must be an iso date time string") ∧
    (dateOk ext kvs "created" →
      ∀ s, kvs.lookup "modified" = some (.str s) → ext.parseIso s = none →
      get_metadata ext zip = .waczError "modified must be an iso date time string") ∧
    (dateOk ext kvs "created" → dateOk ext kvs "modified" →
      ∀ s, kvs.lookup "main_page_date" = some (.str s) → ext.parseIso s = none →
      get_metadata ext zip = .waczError "main_page_date must be an iso date time string") ∧
    (∀ md, get_metadata ext zip = .ok md →
      kvs.lookup "wacz_version" = some md.wacz_version ∧
      md.title = (kvs.lookup "title").getD Json.null ∧
      md.description = (kvs.lookup "description").getD Json.null ∧
      md.software = (kvs.lookup "software").getD Json.null ∧
      md.main_page_url = (kvs.lookup "mainPageUrl").getD Json.null ∧
      (kvs.lookup "created" = none → md.created = none) ∧
      (∀ s t, kvs.lookup "created" = some (.str s) → ext.parseIso s = some t →
        md.created = some t) ∧
      (kvs.lookup "modified" = none → md.modified = none) ∧
      (∀ s t, kvs.lookup "modified" = some (.str s) → ext.parseIso s = some t →
        md.modified = some t) ∧
      (kvs.lookup "main_page_date" = none → md.main_page_date = none) ∧
      (∀ s t, kvs.lookup "main_page_date" = some (.str s) → ext.parseIso s = some t →
        md.main_page_date = some t)) := by
  refine ⟨?_, ?_, ?_, ?_⟩
  · intro s hl hp
    rw [get_metadata, hdp, Res.bind_ok, parseDateField_lookup_str hl, hp]
    rfl
  · intro hcr s hl hp
    obtain ⟨o, ho⟩ := parseDateField_of_dateOk "created must be an iso date time string" hcr
    rw [get_metadata, hdp, Res.bind_ok, ho, Res.bind_ok,
      parseDateField_lookup_str hl, hp]
    rfl
  · intro hcr hmo s hl hp
    obtain ⟨o, ho⟩ := parseDateField_of_dateOk "created must be an iso date time string" hcr
    obtain ⟨o', ho'⟩ := parseDateField_of_dateOk "modified must be an iso date time string" hmo
    rw [get_metadata, hdp, Res.bind_ok, ho, Res.bind_ok, ho', Res.bind_ok,
      parseDateField_lookup_str hl, hp]
    rfl
  · intro md h
    rw [get_metadata, hdp, Res.bind_ok] at h
    rw [Res.bind_eq_ok] at h; obtain ⟨created, hcr, h⟩ := h
    rw [Res.bind_eq_ok] at h; obtain ⟨modified, hmo, h⟩ := h
    rw [Res.bind_eq_ok] at h; obtain ⟨mpd, hmp, h⟩ := h
    rw [Res.bind_eq_ok] at h; obtain ⟨wv, hwv, h⟩ := h
    rw [Res.bind_eq_ok] at h; obtain ⟨title, hti, h⟩ := h
    rw [Res.bind_eq_ok] at h; obtain ⟨description, hde, h⟩ := h
    rw [Res.bind_eq_ok] at h; obtain ⟨software, hso, h⟩ := h
    rw [Res.bind_eq_ok] at h; obtain ⟨mainPageUrl, hmu, h⟩ := h
    cases h
    simp only [pyGetItem] at hwv
    refine ⟨?_, ?_, ?_, ?_, ?_, ?_, ?_, ?_, ?_, ?_, ?_⟩
    · cases hl : kvs.lookup "wacz_version" with
      | none => rw [hl] at hwv; exact absurd hwv (by simp)
      | some v => rw [hl] at hwv; cases hwv; rfl
    · rw [optField_obj] at hti; cases hti; rfl
    · rw [optField_obj] at hde; cases hde; rfl
    · rw [optField_obj] at hso; cases hso; rfl
    · rw [optField_obj] at hmu; cases hmu; rfl
    · intro hl; rw [parseDateField_lookup_none hl] at hcr; cases hcr; rfl
    · intro s t hl hp
      rw [parseDateField_lookup_str hl, hp] at hcr; cases hcr; rfl
    · intro hl; rw [parseDateField_lookup_none hl] at hmo; cases hmo; rfl
    · intro s t hl hp
      rw [parseDateField_lookup_str hl, hp] at hmo; cases hmo; rfl
    · intro hl; rw [parseDateField_lookup_none hl] at hmp; cases hmp; rfl
    · intro s t hl hp
      rw [parseDateField_lookup_str hl, hp] at hmp; cases hmp; rfl

/-- Witness for C5: on the conformant fixture, `get_metadata` succeeds,
copies `wacz_version` and `title`, parses the present `created` date, and
leaves the absent `modified` date as None. -/
theorem get_metadata_field_semantics_witness :
    ∃ md, get_metadata exampleExt zipValid = .ok md ∧
      md.wacz_version = .str "1.1.1" ∧ md.title = .str "valid-example" ∧
      md.created = some 1688473553 ∧ md.modified = none ∧ md.description = .null := by
  refine ⟨{ wacz_version := .str "1.1.1", title := .str "valid-example",
            description := .null, created := some 1688473553, modified := none,
            software := .null, main_page_url := .null, main_page_date := none },
    rfl, ?_⟩
  have h := (get_metadata_field_semantics exampleExt zipValid
    [("profile", .str "data-package"), ("wacz_version", .str "1.1.1"),
     ("title", .str "valid-example"),
     ("created", .str "2023-07-04T12:25:53.900Z"),
     ("resources", .arr
       [.obj [("path", .str "archive/data.warc.gz"), ("hash", .str "sha256:goodhash")],
        .obj [("path", .str "indexes/index.cdx")]])] rfl).2.2.2 _ rfl
  exact ⟨by injection h.1, h.2.1.symm ▸ rfl, h.2.2.2.2.2.2.1 _ _ rfl rfl, rfl, rfl⟩

theorem goPages_ok_forall₂ {ext : Ext} {ls : List String} {pgs : List WaczPage}
    (h : goPages ext ls [] = .ok pgs) :
    List.Forall₂ (fun l pg => pageStep ext l = .ok pg) ls pgs := by
  induction ls generalizing pgs with
  | nil => cases h; exact List.Forall₂.nil
  | cons l t ih =>
    rw [goPages] at h
    cases hp : pageStep ext l with
    | ok pg =>
      rw [hp, Res.bind_ok, goPages_acc] at h
      cases hg : goPages ext t [] with
      | ok pgs' =>
        rw [hg] at h
        simp only [Res.bind_ok, List.nil_append, List.singleton_append] at h
        cases h
        exact List.Forall₂.cons hp (ih hg)
      | waczError r => rw [hg] at h; exact absurd h (by simp)
      | pyErr e => rw [hg] at h; exact absurd h (by simp)
    | waczError r => rw [hp] at h; exact absurd h (by simp)
    | pyErr e => rw [hp] at h; exact absurd h (by simp)

theorem pageStep_ok_fields {ext : Ext} {line : String} {j : List (String × Json)}
    {pg : WaczPage}
    (hj : ext.jsonParse line = some (.obj j)) (h : pageStep ext line = .ok pg) :
    j.lookup "url" = some pg.url ∧
    pg.title = (j.lookup "title").getD Json.null ∧
    pg.id = (j.lookup "id").getD Json.null ∧
    pg.text = (j.lookup "text").getD Json.null ∧
    pg.size = (j.lookup "size").getD Json.null := by
  rw [pageStep] at h
  cases hv : validatePage ext line with
  | ok u =>
    cases u
    rw [hv, Res.bind_ok] at h
    simp only [hj] at h
    rw [Res.bind_eq_ok] at h; obtain ⟨url, hurl, h⟩ := h
    rw [Res.bind_eq_ok] at h; obtain ⟨tsv, hts, h⟩ := h
    rw [Res.bind_eq_ok] at h; obtain ⟨ts, htsp, h⟩ := h
    rw [Res.bind_eq_ok] at h; obtain ⟨title, hti, h⟩ := h
    rw [Res.bind_eq_ok] at h; obtain ⟨idv, hid, h⟩ := h
    rw [Res.bind_eq_ok] at h; obtain ⟨text, hte, h⟩ := h
    rw [Res.bind_eq_ok] at h; obtain ⟨size, hsz, h⟩ := h
    cases h
    simp only [pyGetItem] at hurl
    refine ⟨?_, ?_, ?_, ?_, ?_⟩
    · cases hl : j.lookup "url" with
      | none => rw [hl] at hurl; exact absurd hurl (by simp)
      | some v => rw [hl] at hurl; cases hurl; rfl
    · rw [optField_obj] at hti; cases hti; rfl
    · rw [optField_obj] at hid; cases hid; rfl
    · rw [optField_obj] at hte; cases hte; rfl
    · rw [optField_obj] at hsz; cases hsz; rfl
  | waczError r => rw [hv] at h; exact absurd h (by simp)
  | pyErr e => rw [hv] at h; exact absurd h (by simp)

theorem get_metadata_ok_opt_shape {ext : Ext} {zip : Zip}
    {kvs : List (String × Json)} {md : WaczMetadata}
    (hdp : getDatapackage ext zip = .ok (.obj kvs))
    (h : get_metadata ext zip = .ok md) :
    md.title = (kvs.lookup "title").getD Json.null ∧
    md.description = (kvs.lookup "description").getD Json.null ∧
    md.software = (kvs.lookup "software").getD Json.null ∧
    md.main_page_url = (kvs.lookup "mainPageUrl").getD Json.null := by
  rw [get_metadata, hdp, Res.bind_ok] at h
  rw [Res.bind_eq_ok] at h; obtain ⟨created, hcr, h⟩ := h
  rw [Res.bind_eq_ok] at h; obtain ⟨modified, hmo, h⟩ := h
  rw [Res.bind_eq_ok] at h; obtain ⟨mpd, hmp, h⟩ := h
  rw [Res.bind_eq_ok] at h; obtain ⟨wv, hwv, h⟩ := h
  rw [Res.bind_eq_ok] at h; obtain ⟨title, hti, h⟩ := h
  rw [Res.bind_eq_ok] at h; obtain ⟨description, hde, h⟩ := h
  rw [Res.bind_eq_ok] at h; obtain ⟨software, hso, h⟩ := h
  rw [Res.bind_eq_ok] at h; obtain ⟨mainPageUrl, hmu, h⟩ := h
  cases h
  rw [optField_obj] at hti hde hso hmu
  cases hti; cases hde; cases hso; cases hmu
  exact ⟨rfl, rfl, rfl, rfl⟩

/-- C10: in `get_metadata` and `get_pages`, an optional key present with
the JSON value `null` yields exactly the same field as the key being
absent (None either way), so callers cannot tell them apart; present
values are copied through with no type checking (any JSON value). -/
theorem null_and_absent_optionals_agree (ext : Ext) (zip : Zip) :
    (∀ kvs md, getDatapackage ext zip = .ok (.obj kvs) →
      get_metadata ext zip = .ok md →
      (((kvs.lookup "title" = none ∨ kvs.lookup "title" = some .null) →
          md.title = .null) ∧ ∀ v, kvs.lookup "title" = some v → md.title = v) ∧
      (((kvs.lookup "description" = none ∨ kvs.lookup "description" = some .null) →
          md.description = .null) ∧
        ∀ v, kvs.lookup "description" = some v → md.description = v) ∧
      (((kvs.lookup "software" = none ∨ kvs.lookup "software" = some .null) →
          md.software = .null) ∧
        ∀ v, kvs.lookup "software" = some v → md.software = v) ∧
      (((kvs.lookup "mainPageUrl" = none ∨ kvs.lookup "mainPageUrl" = some .null) →
          md.main_page_url = .null) ∧
        ∀ v, kvs.lookup "mainPageUrl" = some v → md.main_page_url = v)) ∧
    (∀ pc hd rest pgs, zip.openMember "pages/pages.jsonl" = some pc →
      pyLines pc = hd :: rest → get_pages ext zip = .ok pgs →
      List.Forall₂ (fun l pg => ∀ j, ext.jsonParse l = some (.obj j) →
        (((j.lookup "title" = none ∨ j.lookup "title" = some .null) →
            pg.title = .null) ∧ ∀ v, j.lookup "title" = some v → pg.title = v) ∧
        (((j.lookup "id" = none ∨ j.lookup "id" = some .null) →
            pg.id = .null) ∧ ∀ v, j.lookup "id" = some v → pg.id = v) ∧
        (((j.lookup "text" = none ∨ j.lookup "text" = some .null) →
            pg.text = .null) ∧ ∀ v, j.lookup "text" = some v → pg.text = v) ∧
        (((j.lookup "size" = none ∨ j.lookup "size" = some .null) →
            pg.size = .null) ∧ ∀ v, j.lookup "size" = some v → pg.size = v))
        rest pgs) := by
  constructor
  · intro kvs md hdp hmd
    obtain ⟨h1, h2, h3, h4⟩ := get_metadata_ok_opt_shape hdp hmd
    refine ⟨⟨?_, ?_⟩, ⟨?_, ?_⟩, ⟨?_, ?_⟩, ⟨?_, ?_⟩⟩ <;>
      first
      | (rintro (hl | hl) <;> simp [h1, h2, h3, h4, hl])
      | (intro v hl; simp [h1, h2, h3, h4, hl])
  · intro pc hd rest pgs hpc hlines hgp
    simp only [get_pages, hpc, hlines, List.drop_succ_cons, List.drop_zero] at hgp
    refine (goPages_ok_forall₂ hgp).imp ?_
    intro l pg hstep j hj
    obtain ⟨_, h1, h2, h3, h4⟩ := pageStep_ok_fields hj hstep
    refine ⟨⟨?_, ?_⟩, ⟨?_, ?_⟩, ⟨?_, ?_⟩, ⟨?_, ?_⟩⟩ <;>
      first
      | (rintro (hl | hl) <;> simp [h1, h2, h3, h4, hl])
      | (intro v hl; simp [h1, h2, h3, h4, hl])

/-- Witness for C10: on the null-title fixture, the manifest `title` is
present as JSON null and comes out as None, just as an absent key; the
page's null `title` likewise. -/
theorem null_and_absent_optionals_agree_witness :
    ∃ md, get_metadata exampleExt zipNullTitle = .ok md ∧ md.title = .null := by
  refine ⟨{ wacz_version := .str "1.1.1", title := .null, description := .null,
            created := none, modified := none, software := .null,
            main_page_url := .null, main_page_date := none }, rfl, ?_⟩
  exact (((null_and_absent_optionals_agree exampleExt zipNullTitle).1
    [("profile", .str "data-package"), ("wacz_version", .str "1.1.1"),
     ("title", .null),
     ("resources", .arr [.obj [("path", .str "archive/data.warc.gz")]])]
    _ rfl rfl).1).1 (Or.inr rfl)

theorem checkResource_hashless {ext : Ext} {zip : Zip} {kvs : List (String × Json)}
    (h : kvs.lookup "hash" = none) :
    checkResource ext zip (.obj kvs) = .ok none := by
  simp [checkResource, pyContains, any_key_eq_lookup_isSome, h]

theorem checkResource_no_colon {ext : Ext} {zip : Zip} {kvs : List (String × Json)}
    {hsh : String}
    (hh : kvs.lookup "hash" = some (.str hsh)) (hsplit : splitOnce hsh = none) :
    checkResource ext zip (.obj kvs) = .pyErr (.valueError "not enough values to unpack") := by
  simp [checkResource, pyContains, pyGetItem, any_key_eq_lookup_isSome, hh, hsplit]

theorem checkResource_missing_member {ext : Ext} {zip : Zip} {kvs : List (String × Json)}
    {hsh algo hx p : String}
    (hh : kvs.lookup "hash" = some (.str hsh)) (hsplit : splitOnce hsh = some (algo, hx))
    (hp : kvs.lookup "path" = some (.str p)) (hmem : zip.openMember p = none) :
    checkResource ext zip (.obj kvs) = .pyErr (.keyError p) := by
  simp [checkResource, pyContains, pyGetItem, any_key_eq_lookup_isSome, hh, hsplit, hp, hmem]

theorem checkResource_unsupported {ext : Ext} {zip : Zip} {kvs : List (String × Json)}
    {hsh algo hx p content : String}
    (hh : kvs.lookup "hash" = some (.str hsh)) (hsplit : splitOnce hsh = some (algo, hx))
    (hp : kvs.lookup "path" = some (.str p)) (hmem : zip.openMember p = some content)
    (hsup : ext.hashSupported algo = false) :
    checkResource ext zip (.obj kvs) = .pyErr (.valueError "unsupported hash type") := by
  simp [checkResource, pyContains, pyGetItem, any_key_eq_lookup_isSome, hh, hsplit, hp,
    hmem, hsup]

theorem checkResource_full {ext : Ext} {zip : Zip} {kvs : List (String × Json)}
    {hsh algo hx p content : String}
    (hh : kvs.lookup "hash" = some (.str hsh)) (hsplit : splitOnce hsh = some (algo, hx))
    (hp : kvs.lookup "path" = some (.str p)) (hmem : zip.openMember p = some content)
    (hsup : ext.hashSupported algo = true) :
    checkResource ext zip (.obj kvs) =
      .ok (some (p, ext.hashHex algo content = hx)) := by
  simp [checkResource, pyContains, pyGetItem, any_key_eq_lookup_isSome, hh, hsplit, hp,
    hmem, hsup]

/-- The per-resource loop body never raises the typed error itself. -/
theorem checkResource_ne_waczError (ext : Ext) (zip : Zip) (r : Json) (s : String) :
    checkResource ext zip r ≠ .waczError s := by
  intro h
  rw [checkResource] at h
  cases r <;>
    simp only [pyContains, pyGetItem, Res.bind_ok, Res.bind_pyErr] at h <;>
    try exact Res.noConfusion h
  all_goals
    repeat
      first
      | exact Res.noConfusion h
      | simp only [Res.bind_ok, Res.bind_pyErr] at h
      | split at h

theorem goResources_ne_waczError (ext : Ext) (zip : Zip) (rs : List Json)
    (acc : List (String × Bool)) (s : String) :
    goResources ext zip rs acc ≠ .waczError s := by
  induction rs generalizing acc with
  | nil => simp [goResources]
  | cons r t ih =>
    intro h
    rw [goResources] at h
    cases hc : checkResource ext zip r with
    | ok entry =>
      rw [hc, Res.bind_ok] at h
      cases entry with
      | none => exact ih acc h
      | some pb => cases pb with | mk p b => exact ih _ h
    | waczError r' => exact checkResource_ne_waczError ext zip r r' hc
    | pyErr e => rw [hc, Res.bind_pyErr] at h; exact Res.noConfusion h

theorem goResources_pyErr_of_mem {ext : Ext} {zip : Zip} {rs : List Json} {r : Json}
    {e : PyErr} (hr : r ∈ rs) (he : checkResource ext zip r = .pyErr e) :
    ∀ acc, ∃ e', goResources ext zip rs acc = .pyErr e' := by
  induction rs with
  | nil => cases hr
  | cons x t ih =>
    intro acc
    rw [goResources]
    cases hc : checkResource ext zip x with
    | ok entry =>
      rcases List.mem_cons.mp hr with heq | hr'
      · subst heq
        rw [hc] at he
        exact absurd he (by simp)
      · rw [Res.bind_ok]
        cases entry with
        | none => exact ih hr' acc
        | some pb => cases pb with | mk p b => exact ih hr' _
    | waczError s => exact absurd hc (checkResource_ne_waczError ext zip x s)
    | pyErr e' => exact ⟨e', by rw [Res.bind_pyErr]⟩

theorem goResources_append (ext : Ext) (zip : Zip) (xs ys : List Json) :
    ∀ acc, goResources ext zip (xs ++ ys) acc =
      (goResources ext zip xs acc).bind fun acc' => goResources ext zip ys acc' := by
  induction xs with
  | nil => intro acc; simp [goResources]
  | cons x t ih =>
    intro acc
    rw [List.cons_append, goResources, goResources]
    cases hc : checkResource ext zip x with
    | ok entry =>
      simp only [Res.bind_ok]
      cases entry with
      | none => exact ih acc
      | some pb => cases pb with | mk p b => exact ih _
    | waczError s => simp
    | pyErr e => simp

/-- C9: with a valid manifest, a resource descriptor whose hash string
contains no colon makes `verify_checksums` blow up in the two-way tuple
unpack: the outcome is an untyped Python error, never a result map and
never the typed `InvalidWaczError`. -/
theorem verify_checksums_no_colon_untyped {ext : Ext} {zip : Zip}
    {kvs rkvs : List (String × Json)} {rs : List Json} {hsh : String}
    (hdp : getDatapackage ext zip = .ok (.obj kvs))
    (hrs : kvs.lookup "resources" = some (.arr rs))
    (hr : Json.obj rkvs ∈ rs)
    (hh : rkvs.lookup "hash" = some (.str hsh))
    (hsplit : splitOnce hsh = none) :
    (∃ e, verify_checksums ext zip = .pyErr e) ∧
    (∀ m, verify_checksums ext zip ≠ .ok m) ∧
    (∀ s, verify_checksums ext zip ≠ .waczError s) := by
  have hcr : checkResource ext zip (.obj rkvs) =
      .pyErr (.valueError "not enough values to unpack") :=
    checkResource_no_colon hh hsplit
  obtain ⟨e', he'⟩ := goResources_pyErr_of_mem hr hcr []
  have heq : verify_checksums ext zip = goResources ext zip rs [] := by
    simp [verify_checksums, hdp, pyGetItem, hrs]
  rw [heq, he']
  exact ⟨⟨e', rfl⟩, by simp, by simp⟩

/-- Witness for C9 at the no-colon fixture. -/
theorem verify_checksums_no_colon_untyped_witness :
    ∃ e, verify_checksums exampleExt zipNoColon = .pyErr e :=
  (@verify_checksums_no_colon_untyped exampleExt zipNoColon
    [("profile", .str "data-package"), ("wacz_version", .str "1.1.1"),
     ("resources", .arr [.obj [("path", .str "archive/data.warc.gz"),
       ("hash", .str "nocolonhash")]])]
    [("path", .str "archive/data.warc.gz"), ("hash", .str "nocolonhash")]
    [.obj [("path", .str "archive/data.warc.gz"), ("hash", .str "nocolonhash")]]
    "nocolonhash" rfl rfl (List.mem_singleton.mpr rfl) rfl rfl).1

/-- C2 (counterexample): on a valid manifest declaring a hash for a path
absent from the container, `verify_checksums` raises the zip reader's
untyped `KeyError` — not a typed `InvalidWaczError`; the unsupported
algorithm case likewise raises an untyped `ValueError`. -/
theorem verify_checksums_untyped_errors_cex :
    verify_checksums exampleExt zipMissingPath = .pyErr (.keyError "missing.bin") ∧
    (verify_checksums exampleExt zipMissingPath).isWaczError = false ∧
    verify_checksums exampleExt zipBadAlgo = .pyErr (.valueError "unsupported hash type") ∧
    (verify_checksums exampleExt zipBadAlgo).isWaczError = false :=
  ⟨rfl, rfl, rfl, rfl⟩

/-- C2 (amended): a hash-declaring resource whose path is absent, or whose
algorithm is unsupported, is an error — but an untyped one (`KeyError`
naming the missing path, `ValueError` for the algorithm), and the path is
never recorded as a False mismatch in a result map. -/
theorem verify_checksums_bad_resource_untyped {ext : Ext} {zip : Zip}
    {kvs rkvs : List (String × Json)} {rs₁ rs₂ : List Json}
    {hsh algo hx p : String} {acc : List (String × Bool)}
    (hdp : getDatapackage ext zip = .ok (.obj kvs))
    (hrs : kvs.lookup "resources" = some (.arr (rs₁ ++ Json.obj rkvs :: rs₂)))
    (hpre : goResources ext zip rs₁ [] = .ok acc)
    (hh : rkvs.lookup "hash" = some (.str hsh))
    (hsplit : splitOnce hsh = some (algo, hx))
    (hp : rkvs.lookup "path" = some (.str p)) :
    (zip.openMember p = none →
      verify_checksums ext zip = .pyErr (.keyError p)) ∧
    (∀ content, zip.openMember p = some content → ext.hashSupported algo = false →
      verify_checksums ext zip = .pyErr (.valueError "unsupported hash type")) := by
  have heq : verify_checksums ext zip =
      goResources ext zip (rs₁ ++ Json.obj rkvs :: rs₂) [] := by
    simp [verify_checksums, hdp, pyGetItem, hrs]
  rw [heq, goResources_append, hpre, Res.bind_ok]
  constructor
  · intro hmem
    rw [goResources, checkResource_missing_member hh hsplit hp hmem, Res.bind_pyErr]
  · intro content hmem hsup
    rw [goResources, checkResource_unsupported hh hsplit hp hmem hsup, Res.bind_pyErr]

/-- Witness for the amended C2 at the missing-path and bad-algorithm
fixtures. -/
theorem verify_checksums_bad_resource_untyped_witness :
    verify_checksums exampleExt zipMissingPath = .pyErr (.keyError "missing.bin") ∧
    verify_checksums exampleExt zipBadAlgo = .pyErr (.valueError "unsupported hash type") := by
  constructor
  · exact (@verify_checksums_bad_resource_untyped exampleExt zipMissingPath
      [("profile", .str "data-package"), ("wacz_version", .str "1.1.1"),
       ("resources", .arr [.obj [("path", .str "missing.bin"),
         ("hash", .str "sha256:feed")]])]
      [("path", .str "missing.bin"), ("hash", .str "sha256:feed")]
      [] [] "sha256:feed" "sha256" "feed" "missing.bin" []
      rfl rfl rfl rfl rfl rfl).1 rfl
  · exact (@verify_checksums_bad_resource_untyped exampleExt zipBadAlgo
      [("profile", .str "data-package"), ("wacz_version", .str "1.1.1"),
       ("resources", .arr [.obj [("path", .str "archive/data.warc.gz"),
         ("hash", .str "whirlpoolx:feed")]])]
      [("path", .str "archive/data.warc.gz"), ("hash", .str "whirlpoolx:feed")]
      [] [] "whirlpoolx:feed" "whirlpoolx" "feed" "archive/data.warc.gz" []
      rfl rfl rfl rfl rfl rfl).2 "warc-bytes" rfl rfl

/-- Membership after a Python-dict insertion: the new binding is present,
old bindings survive unless their key was overwritten. -/
theorem mem_dictInsert_iff (d : List (String × Bool)) (k : String) (v : Bool)
    (p : String) (b : Bool) :
    (p, b) ∈ dictInsert d k v ↔ (p = k ∧ b = v) ∨ ((p, b) ∈ d ∧ p ≠ k) := by
  unfold dictInsert
  split
  next hk =>
    rw [List.mem_map]
    constructor
    · rintro ⟨q, hq, hqe⟩
      split at hqe
      next hq1 =>
        cases hqe
        exact Or.inl ⟨rfl, rfl⟩
      next hq1 =>
        cases hqe
        exact Or.inr ⟨hq, hq1⟩
    · rintro (⟨rfl, rfl⟩ | ⟨hpd, hpk⟩)
      · obtain ⟨q, hq, hq1⟩ := List.any_eq_true.mp hk
        exact ⟨q, hq, by simp_all⟩
      · exact ⟨(p, b), hpd, by simp [hpk]⟩
  next hk =>
    rw [List.mem_append]
    constructor
    · rintro (hpd | hpb)
      · refine Or.inr ⟨hpd, ?_⟩
        intro hpk
        subst hpk
        exact hk (List.any_eq_true.mpr ⟨(p, b), hpd, by simp⟩)
      · left
        simpa using hpb
    · rintro (⟨rfl, rfl⟩ | ⟨hpd, _⟩)
      · right; simp
      · left; exact hpd

theorem declaresHashPath_cons {r : Json} {rs : List Json} {p : String} :
    declaresHashPath (r :: rs) p ↔
      (∃ rkvs hsh, r = Json.obj rkvs ∧ rkvs.lookup "path" = some (.str p) ∧
        rkvs.lookup "hash" = some (.str hsh)) ∨ declaresHashPath rs p := by
  unfold declaresHashPath
  constructor
  · rintro ⟨rkvs, hsh, hmem, hp, hh⟩
    rcases List.mem_cons.mp hmem with heq | hmem'
    · exact Or.inl ⟨rkvs, hsh, heq.symm, hp, hh⟩
    · exact Or.inr ⟨rkvs, hsh, hmem', hp, hh⟩
  · rintro (⟨rkvs, hsh, heq, hp, hh⟩ | ⟨rkvs, hsh, hmem, hp, hh⟩)
    · subst heq
      exact ⟨rkvs, hsh, List.mem_cons_self _ _, hp, hh⟩
    · exact ⟨rkvs, hsh, List.mem_cons_of_mem _ hmem, hp, hh⟩

theorem entryWitness_cons {ext : Ext} {zip : Zip} {r : Json} {rs : List Json}
    {p : String} {b : Bool} (h : entryWitness ext zip rs p b) :
    entryWitness ext zip (r :: rs) p b := by
  obtain ⟨rkvs, hsh, algo, hx, content, hmem, hrest⟩ := h
  exact ⟨rkvs, hsh, algo, hx, content, List.mem_cons_of_mem _ hmem, hrest⟩

/-- Running the checksum loop over well-formed resources: it succeeds, and
the final dict's entries are justified by the resources (or inherited from
the accumulator), with the key set exactly the accumulator keys plus the
hash-declaring paths. -/
theorem goResources_good {ext : Ext} {zip : Zip} {rs : List Json}
    (hgood : ∀ r ∈ rs, goodResource ext zip r) :
    ∀ acc, ∃ m, goResources ext zip rs acc = .ok m ∧
      (∀ p b, (p, b) ∈ m → (p, b) ∈ acc ∨ entryWitness ext zip rs p b) ∧
      (∀ p, (∃ b, (p, b) ∈ m) ↔ ((∃ b, (p, b) ∈ acc) ∨ declaresHashPath rs p)) := by
  induction rs with
  | nil =>
    intro acc
    refine ⟨acc, rfl, fun p b h => Or.inl h, fun p => ?_⟩
    unfold declaresHashPath
    simp
  | cons r t ih =>
    intro acc
    have hgt : ∀ x ∈ t, goodResource ext zip x :=
      fun x hx => hgood x (List.mem_cons_of_mem _ hx)
    obtain ⟨rkvs, hre, hcases⟩ := hgood r (List.mem_cons_self _ _)
    subst hre
    rcases hcases with hnone | ⟨hsh, algo, hx, p₀, content, hh, hsplit, hp, hmem, hsup⟩
    · -- resource declares no hash: skipped
      obtain ⟨m, hm, hjust, hkeys⟩ := ih hgt acc
      refine ⟨m, ?_, ?_, ?_⟩
      · rw [goResources, checkResource_hashless hnone, Res.bind_ok]
        exact hm
      · intro p b hpb
        rcases hjust p b hpb with h | h
        · exact Or.inl h
        · exact Or.inr (entryWitness_cons h)
      · intro p
        rw [hkeys p, declaresHashPath_cons]
        constructor
        · rintro (h | h)
          · exact Or.inl h
          · exact Or.inr (Or.inr h)
        · rintro (h | ⟨rkvs', hsh', heq, hp', hh'⟩ | h)
          · exact Or.inl h
          · injection heq with heq'
            subst heq'
            rw [hnone] at hh'
            exact absurd hh' (by simp)
          · exact Or.inr h
    · -- resource declares a usable hash: an entry is written
      obtain ⟨m, hm, hjust, hkeys⟩ := ih hgt (dictInsert acc p₀ (ext.hashHex algo content = hx))
      refine ⟨m, ?_, ?_, ?_⟩
      · rw [goResources, checkResource_full hh hsplit hp hmem hsup, Res.bind_ok]
        exact hm
      · intro p b hpb
        rcases hjust p b hpb with h | h
        · rcases (mem_dictInsert_iff _ _ _ _ _).mp h with ⟨rfl, rfl⟩ | ⟨hin, _⟩
          · exact Or.inr ⟨rkvs, hsh, algo, hx, content, List.mem_cons_self _ _,
              hp, hh, hsplit, hmem, rfl⟩
          · exact Or.inl hin
        · exact Or.inr (entryWitness_cons h)
      · intro p
        rw [hkeys p, declaresHashPath_cons]
        constructor
        · rintro (⟨b, hb⟩ | h)
          · rcases (mem_dictInsert_iff _ _ _ _ _).mp hb with ⟨rfl, rfl⟩ | ⟨hin, _⟩
            · exact Or.inr (Or.inl ⟨rkvs, hsh, rfl, hp, hh⟩)
            · exact Or.inl ⟨b, hin⟩
          · exact Or.inr (Or.inr h)
        · rintro (⟨b, hb⟩ | ⟨rkvs', hsh', heq, hp', hh'⟩ | h)
          · by_cases hpk : p = p₀
            · subst hpk
              exact Or.inl ⟨_, (mem_dictInsert_iff _ _ _ _ _).mpr (Or.inl ⟨rfl, rfl⟩)⟩
            · exact Or.inl ⟨b, (mem_dictInsert_iff _ _ _ _ _).mpr (Or.inr ⟨hb, hpk⟩)⟩
          · injection heq with heq'
            subst heq'
            rw [hp] at hp'
            have hpp : p = p₀ := by
              injection hp' with h1
              injection h1 with h2
              exact h2.symm
            subst hpp
            exact Or.inl ⟨_, (mem_dictInsert_iff _ _ _ _ _).mpr (Or.inl ⟨rfl, rfl⟩)⟩
          · exact Or.inr h

/-- C3: with a valid manifest whose hash-declaring resources all name
existing members under supported algorithms, `verify_checksums` returns a
result map whose key set is exactly the set of paths of hash-declaring
descriptors (hash-less descriptors silently excluded); every entry's value
is the case-sensitive comparison of the computed hex digest of the
member's full contents with the text after the first colon of the declared
hash; a mismatch is a False entry, never an error. -/
theorem verify_checksums_result_map {ext : Ext} {zip : Zip}
    {kvs : List (String × Json)} {rs : List Json}
    (hdp : getDatapackage ext zip = .ok (.obj kvs))
    (hrs : kvs.lookup "resources" = some (.arr rs))
    (hgood : ∀ r ∈ rs, goodResource ext zip r) :
    ∃ m, verify_checksums ext zip = .ok m ∧
      (∀ p, (∃ b, (p, b) ∈ m) ↔ declaresHashPath rs p) ∧
      (∀ p b, (p, b) ∈ m → entryWitness ext zip rs p b) := by
  obtain ⟨m, hm, hjust, hkeys⟩ := goResources_good hgood []
  have heq : verify_checksums ext zip = goResources ext zip rs [] := by
    simp [verify_checksums, hdp, pyGetItem, hrs]
  refine ⟨m, heq.trans hm, ?_, ?_⟩
  · intro p
    rw [hkeys p]
    simp
  · intro p b hpb
    rcases hjust p b hpb with h | h
    · simp at h
    · exact h

/-- Witness for C3 at the conformant fixture: the matching resource comes
back True, the hash-less resource is excluded, and every entry of the map
is justified by a declaring resource. -/
theorem verify_checksums_result_map_witness :
    verify_checksums exampleExt zipValid = .ok [("archive/data.warc.gz", true)] ∧
    ∃ m, verify_checksums exampleExt zipValid = .ok m ∧
      ∀ p b, (p, b) ∈ m → entryWitness exampleExt zipValid
        [.obj [("path", .str "archive/data.warc.gz"), ("hash", .str "sha256:goodhash")],
         .obj [("path", .str "indexes/index.cdx")]] p b := by
  refine ⟨rfl, ?_⟩
  have hg : ∀ r ∈ ([.obj [("path", .str "archive/data.warc.gz"),
        ("hash", .str "sha256:goodhash")],
      .obj [("path", .str "indexes/index.cdx")]] : List Json),
      goodResource exampleExt zipValid r := by
    intro r hr
    rcases List.mem_cons.mp hr with rfl | hr2
    · exact ⟨[("path", .str "archive/data.warc.gz"), ("hash", .str "sha256:goodhash")], rfl,
        Or.inr ⟨"sha256:goodhash", "sha256", "goodhash", "archive/data.warc.gz",
          "warc-bytes", rfl, rfl, rfl, rfl, rfl⟩⟩
    · rcases List.mem_singleton.mp hr2 with rfl
      exact ⟨[("path", .str "indexes/index.cdx")], rfl, Or.inl rfl⟩
  obtain ⟨m, hm, -, hj⟩ := @verify_checksums_result_map exampleExt zipValid
    [("profile", .str "data-package"), ("wacz_version", .str "1.1.1"),
     ("title", .str "valid-example"),
     ("created", .str "2023-07-04T12:25:53.900Z"),
     ("resources", .arr
       [.obj [("path", .str "archive/data.warc.gz"), ("hash", .str "sha256:goodhash")],
        .obj [("path", .str "indexes/index.cdx")]])]
    [.obj [("path", .str "archive/data.warc.gz"), ("hash", .str "sha256:goodhash")],
     .obj [("path", .str "indexes/index.cdx")]]
    rfl rfl hg
  exact ⟨m, hm, hj⟩

theorem validatePage_ok_of_pageStep {ext : Ext} {l : String} {pg : WaczPage}
    (h : pageStep ext l = .ok pg) : validatePage ext l = .ok () := by
  rw [pageStep] at h
  cases hv : validatePage ext l with
  | ok u => cases u; rfl
  | waczError r => rw [hv, Res.bind_waczError] at h; exact absurd h (by simp)
  | pyErr e => rw [hv, Res.bind_pyErr] at h; exact absurd h (by simp)

theorem goPages_append (ext : Ext) (xs ys : List String) :
    ∀ acc, goPages ext (xs ++ ys) acc =
      (goPages ext xs acc).bind fun a => goPages ext ys a := by
  induction xs with
  | nil => intro acc; simp [goPages]
  | cons l t ih =>
    intro acc
    rw [List.cons_append, goPages, goPages]
    cases hp : pageStep ext l with
    | ok pg => simp only [Res.bind_ok]; exact ih _
    | waczError r => simp
    | pyErr e => simp

theorem goPages_ok_of_all {ext : Ext} {ls : List String}
    (h : ∀ l ∈ ls, ∃ pg, pageStep ext l = .ok pg) :
    ∀ acc, ∃ a, goPages ext ls acc = .ok a := by
  induction ls with
  | nil => intro acc; exact ⟨acc, rfl⟩
  | cons l t ih =>
    intro acc
    obtain ⟨pg, hpg⟩ := h l (List.mem_cons_self _ _)
    rw [goPages, hpg, Res.bind_ok]
    exact ih (fun x hx => h x (List.mem_cons_of_mem _ hx)) _

/-- C4 (counterexample): a non-header page line that is not parseable
JSON surfaces from both `validate` and `get_pages` as the untyped JSON
decoder error, not as the typed `InvalidWaczError` the claim requires. -/
theorem page_parse_error_untyped_cex :
    validate exampleExt zipBadPageJson = .pyErr .jsonDecodeError ∧
    get_pages exampleExt zipBadPageJson = .pyErr .jsonDecodeError ∧
    (validate exampleExt zipBadPageJson).isWaczError = false ∧
    (get_pages exampleExt zipBadPageJson).isWaczError = false :=
  ⟨rfl, rfl, rfl, rfl⟩

/-- C4 (amended): both `validate` and `get_pages` check every retained
page line: a line missing `url` fails both with the typed reason
`"page does not contain url property"`, a line with `url` but without
`ts` fails both with `"page does not contain ts property"`, but a line
that is not parseable JSON escapes both as the untyped JSON-decode
error rather than a typed `InvalidWaczError`. -/
theorem page_field_errors_typed_but_parse_untyped {ext : Ext} {zip : Zip} {dp : Json}
    {pc hd : String} {good rest₂ : List String} {bad : String}
    (hdp : getDatapackage ext zip = .ok dp)
    (hwarc : zip.namelist.any warcMatch = true)
    (hcdx : zip.namelist.any cdxMatch = true)
    (hpc : zip.openMember "pages/pages.jsonl" = some pc)
    (hlines : pyLines pc = hd :: (good ++ bad :: rest₂))
    (hgood : ∀ l ∈ good, ∃ pg, pageStep ext l = .ok pg) :
    (ext.jsonParse bad = none →
      validate ext zip = .pyErr .jsonDecodeError ∧
      get_pages ext zip = .pyErr .jsonDecodeError) ∧
    (∀ j, ext.jsonParse bad = some j → pyContains j "url" = .ok false →
      validate ext zip = .waczError "page does not contain url property" ∧
      get_pages ext zip = .waczError "page does not contain url property") ∧
    (∀ j, ext.jsonParse bad = some j → pyContains j "url" = .ok true →
      pyContains j "ts" = .ok false →
      validate ext zip = .waczError "page does not contain ts property" ∧
      get_pages ext zip = .waczError "page does not contain ts property") := by
  have hw : ¬ (zip.namelist.filter warcMatch).length = 0 := by
    rw [filter_length_zero_iff_any_false]; simp [hwarc]
  have hc : ¬ (zip.namelist.filter cdxMatch).length = 0 := by
    rw [filter_length_zero_iff_any_false]; simp [hcdx]
  have hval : validate ext zip =
      (validateLines ext good).bind fun _ => validateLines ext (bad :: rest₂) := by
    rw [validate, hdp, Res.bind_ok, if_neg hw, if_neg hc]
    simp only [hpc, hlines, List.drop_succ_cons, List.drop_zero]
    exact validateLines_append ext good (bad :: rest₂)
  have hgoodok : validateLines ext good = .ok () :=
    validateLines_ok_iff.mpr fun l hl => by
      obtain ⟨pg, hpg⟩ := hgood l hl
      exact validatePage_ok_of_pageStep hpg
  have hgp : get_pages ext zip =
      (goPages ext good []).bind fun a => goPages ext (bad :: rest₂) a := by
    simp only [get_pages, hpc, hlines, List.drop_succ_cons, List.drop_zero]
    exact goPages_append ext good (bad :: rest₂) []
  obtain ⟨a, ha⟩ := goPages_ok_of_all hgood []
  have hfinw : ∀ r, validatePage ext bad = .waczError r →
      validate ext zip = .waczError r ∧ get_pages ext zip = .waczError r := by
    intro r hr
    have hps : pageStep ext bad = .waczError r := by
      rw [pageStep, hr, Res.bind_waczError]
    constructor
    · rw [hval, hgoodok, Res.bind_ok, validateLines, hr, Res.bind_waczError]
    · rw [hgp, ha, Res.bind_ok, goPages, hps, Res.bind_waczError]
  have hfinp : ∀ e, validatePage ext bad = .pyErr e →
      validate ext zip = .pyErr e ∧ get_pages ext zip = .pyErr e := by
    intro e hr
    have hps : pageStep ext bad = .pyErr e := by
      rw [pageStep, hr, Res.bind_pyErr]
    constructor
    · rw [hval, hgoodok, Res.bind_ok, validateLines, hr, Res.bind_pyErr]
    · rw [hgp, ha, Res.bind_ok, goPages, hps, Res.bind_pyErr]
  refine ⟨?_, ?_, ?_⟩
  · intro hnone
    exact hfinp .jsonDecodeError (by simp [validatePage, hnone])
  · intro j hj hurl
    exact hfinw _ (by simp [validatePage, hj, hurl])
  · intro j hj hurl hts
    exact hfinw _ (by simp [validatePage, hj, hurl, hts])

/-- Witness for the amended C4: the missing-`url` and missing-`ts`
fixtures produce the exact typed reasons from both operations. -/
theorem page_field_errors_typed_but_parse_untyped_witness :
    validate exampleExt zipPageNoUrl = .waczError "page does not contain url property" ∧
    get_pages exampleExt zipPageNoUrl = .waczError "page does not contain url property" ∧
    validate exampleExt zipPageNoTs = .waczError "page does not contain ts property" ∧
    get_pages exampleExt zipPageNoTs = .waczError "page does not contain ts property" := by
  have h1 := (@page_field_errors_typed_but_parse_untyped exampleExt zipPageNoUrl
    dpOkJson "hdr\npage-no-url\n" "hdr\n" [] [] "page-no-url\n"
    rfl (by decide) (by decide) rfl (by decide)
    (fun l hl => absurd hl (List.not_mem_nil l))).2.1
    (.obj [("ts", .str "2023-07-04T12:25:55.274Z")]) rfl rfl
  have h2 := (@page_field_errors_typed_but_parse_untyped exampleExt zipPageNoTs
    dpOkJson "hdr\npage-no-ts\n" "hdr\n" [] [] "page-no-ts\n"
    rfl (by decide) (by decide) rfl (by decide)
    (fun l hl => absurd hl (List.not_mem_nil l))).2.2
    (.obj [("url", .str "https://example.org/")]) rfl rfl rfl
  exact ⟨h1.1, h1.2, h2.1, h2.2⟩

end Waczlib
